import Mathlib

/-!
Verification development for the graveyard-hashing `raw_hash_set` core
(an open-addressed hash set with bucketed layout, H1/H2 hash splitting,
per-bucket search distances and a disordered bit in the control byte).

The definitions below are a shallow embedding of the C++ source:

* `ctrl_t`, `search-distance` data, `H1`, `H2`, the capacity arithmetic
  (`Ceil`, `BinCountForLoad`, `SizeAfterRehash`) and the generation counter
  are transcribed directly from the header.
* `HashTableMemory` is modelled as a list of bins; each bin carries its
  control bytes, its search distance, its `is_end` flag, and its slots.
  Slots store the element keys (the key is the whole value in a set);
  the hash functor and the equality functor are passed as function
  parameters, as the engine receives them from its policy.
* Operations that in C++ would fail a debug assert or read out of the
  allocated array are modelled as returning `FindLoc.fault` or `none`:
  `BinPointer` advances are plain pointer additions in the source, so a
  bin index that is not below the physical bin count is a memory fault.
* Where noted in doc comments, a statement of the source does not compile
  or is disabled by `#if 0`; the embedding reproduces the operational
  content of what the compiler would accept (for example, a call of the
  static factory `ctrl_t::MakeDisordered` through a slot lvalue whose
  result is discarded performs no write, and a function body that is
  entirely `#if 0` is the identity).
-/

namespace GraveyardSpec

/-! ## Control bytes -/

/-- kEmpty sentinel: the 7-bit h2 field of an empty slot holds 127. -/
def kEmpty : Nat := 127

/-- ctrl_t: a control byte with a 1-bit disordered flag and a 7-bit h2 field.
Empty is encoded as `h2 = 127`; a full slot stores its `H2` value in `[0, 127)`. -/
structure ctrl_t where
  is_disordered : Bool
  h2 : Nat
deriving DecidableEq

/-- Default-constructed control byte: not disordered, h2 = kEmpty. -/
def ctrl_t.empty : ctrl_t := ⟨false, kEmpty⟩

/-- ctrl_t::MakeDisordered — a full, disordered control byte with the given h2. -/
def ctrl_t.MakeDisordered (h2 : Nat) : ctrl_t := ⟨true, h2⟩

/-- ctrl_t::MakeOrdered — a full, ordered control byte with the given h2. -/
def ctrl_t.MakeOrdered (h2 : Nat) : ctrl_t := ⟨false, h2⟩

/-- ctrl_t::IsEmpty — true when the h2 field holds the kEmpty sentinel. -/
def ctrl_t.IsEmpty (c : ctrl_t) : Bool := c.h2 == kEmpty

/-- ctrl_t::IsFull — true when the h2 field differs from kEmpty. -/
def ctrl_t.IsFull (c : ctrl_t) : Bool := c.h2 != kEmpty

/-- ctrl_t::H2 accessor. The source declares it as
`constexpr bool H2() const { return h2_; }` — the return type is `bool`,
so the 7-bit field is narrowed to false/true, which then converts to 0/1
when callers compare it against a `size_t` hash fragment. -/
def ctrl_t.H2AsSizeT (c : ctrl_t) : Nat := if c.h2 = 0 then 0 else 1

/-- Raw byte of a `ctrl_t` under the member declaration
`uint8_t is_disordered_ : 1; uint8_t h2_ : 7;` — the first-declared
bit-field occupies the least significant bit on the Itanium ABI, so the
byte is `is_disordered + 2 * h2` (an empty slot reads as 254). -/
def ctrlByte (c : ctrl_t) : Nat := (if c.is_disordered then 1 else 0) + 2 * c.h2

/-! ## Hash splitting -/

/-- H1: bin number from a raw hash, by the high 64 bits of the 128-bit
product of the hash and the logical bin count (both `size_t` values). -/
def H1 (hash logical_bin_count : Nat) : Nat := hash * logical_bin_count / 2 ^ 64

/-- H2: the 7-bit tag, `hash % 127`. -/
def H2 (hash : Nat) : Nat := hash % 127

/-! ## Policy constants and capacity arithmetic -/

/-- GraveyardCommonPolicy::kSlotsPerBin (14). -/
def kSlotsPerBin : Nat := 14

/-- GraveyardLightlyLoadedPolicy::kFullUtilizationNumerator. -/
def kFullUtilizationNumerator : Nat := 7

/-- GraveyardLightlyLoadedPolicy::kFullUtilizationDenominator. -/
def kFullUtilizationDenominator : Nat := 8

/-- GraveyardLightlyLoadedPolicy::kRehashedUtilizationNumerator. -/
def kRehashedUtilizationNumerator : Nat := 7

/-- GraveyardLightlyLoadedPolicy::kRehashedUtilizationDenominator. -/
def kRehashedUtilizationDenominator : Nat := 16

/-- Ceil(a, b) — the ceiling of a/b. -/
def Ceil (a b : Nat) : Nat := (a + b - 1) / b

/-- BinCountForLoad: number of logical bins for a given size at load factor
kNumerator/kDenominator; 0 for size 0, 1 when the size fits in one bin. -/
def BinCountForLoad (slots_per_bin kNumerator kDenominator size : Nat) : Nat :=
  if size = 0 then 0
  else if size ≤ slots_per_bin then 1
  else Ceil (size * kDenominator) (slots_per_bin * kNumerator)

/-- raw_hash_set::SizeAfterRehash, the argument passed to `resize` when an
insert finds `growth_left() == 0`:
`Ceil(size * kRehashedUtilizationNumerator, kRehashedUtilizationDenominator)`. -/
def SizeAfterRehash (size : Nat) : Nat :=
  Ceil (size * kRehashedUtilizationNumerator) kRehashedUtilizationDenominator

/-! ## Bins and the backing array -/

/-- One bin of the backing array: kSlotsPerBin control bytes, the
search-distance word with its is_end bit, and the slots (element keys). -/
structure Bin where
  ctrl : List ctrl_t
  search_distance : Nat
  is_end : Bool
  slots : List Nat
deriving DecidableEq

/-- HashTableMemory: the backing array. `bins.length` is the physical bin
count; `logical_bin_count` is the member field of the same name (note that
the source only ever assigns it its default value 0: `AllocateMemory` sets
`physical_bin_count_` but never `logical_bin_count_`). -/
structure HashTableMemory where
  logical_bin_count : Nat
  bins : List Bin
deriving DecidableEq

/-- Control byte of slot `slotInBin` of bin `binNumber`. All uses in the
theorems below stay within the allocated array; the default is only to
make the lookup total. -/
def HashTableMemory.ctrlAt (mem : HashTableMemory) (binNumber slotInBin : Nat) : ctrl_t :=
  match mem.bins.get? binNumber with
  | some b => b.ctrl.getD slotInBin ctrl_t.empty
  | none => ctrl_t.empty

/-- Write one control byte (`bin_pointer.get_control()[slot] = c`). -/
def HashTableMemory.setCtrl (mem : HashTableMemory) (binNumber slotInBin : Nat) (c : ctrl_t) :
    HashTableMemory :=
  match mem.bins.get? binNumber with
  | some b => { mem with bins := mem.bins.set binNumber { b with ctrl := b.ctrl.set slotInBin c } }
  | none => mem

/-- Write one slot value (the element transferred or constructed there). -/
def HashTableMemory.setSlot (mem : HashTableMemory) (binNumber slotInBin val : Nat) :
    HashTableMemory :=
  match mem.bins.get? binNumber with
  | some b => { mem with bins := mem.bins.set binNumber { b with slots := b.slots.set slotInBin val } }
  | none => mem

/-! ## Find -/

/-- Result of the find scan: an iterator to a bin/slot, the end iterator,
or a memory fault (a failed debug assert / read outside the array). -/
inductive FindLoc where
  | found : Nat → Nat → FindLoc
  | endIter : FindLoc
  | fault : FindLoc
deriving DecidableEq

/-- Inner loop of find: scan the ctrl bytes of one bin from index `i`
(`fuel` slots remain) for a full slot whose `H2()` accessor equals the
h2 fragment and whose element compares equal to the key. -/
def scanBinFrom (eqFn : Nat → Nat → Bool) (key h2v : Nat) (b : Bin) : Nat → Nat → Option Nat
  | _, 0 => none
  | i, Nat.succ fuel =>
    let c := b.ctrl.getD i ctrl_t.empty
    if c.IsFull && (c.H2AsSizeT == h2v) && eqFn key (b.slots.getD i 0) then some i
    else scanBinFrom eqFn key h2v b (i + 1) fuel

/-- Scan one bin's kSlotsPerBin slots for a match. -/
def scanBin (eqFn : Nat → Nat → Bool) (key h2v : Nat) (b : Bin) : Option Nat :=
  scanBinFrom eqFn key h2v b 0 kSlotsPerBin

/-- Outer loop of find: visit `remaining` consecutive bins starting at
`binIdx`. Advancing the bin pointer past the allocated array is a fault. -/
def findLoop (mem : HashTableMemory) (eqFn : Nat → Nat → Bool) (key h2v : Nat) :
    Nat → Nat → FindLoc
  | _, 0 => FindLoc.endIter
  | binIdx, Nat.succ remaining =>
    match mem.bins.get? binIdx with
    | none => FindLoc.fault
    | some b =>
      match scanBin eqFn key h2v b with
      | some slot => FindLoc.found binIdx slot
      | none => findLoop mem eqFn key h2v (binIdx + 1) remaining

/-- raw_hash_set::find(key, hash): start at bin `H1(hash, logical_bin_count)`,
read that bin's search distance, and scan that many bins. `MakeBinPointer(h1)`
asserts `h1 < physical_bin_count_` and dereferences the bin, so a start bin
outside the array is a fault. -/
def find (mem : HashTableMemory) (eqFn : Nat → Nat → Bool) (key hash : Nat) : FindLoc :=
  let h1 := H1 hash mem.logical_bin_count
  match mem.bins.get? h1 with
  | none => FindLoc.fault
  | some b => findLoop mem eqFn key (H2 hash) h1 b.search_distance

/-! ## find_first_empty -/

/-- First slot of a bin whose control byte is empty, scanning from `i`. -/
def firstEmptySlotFrom (b : Bin) : Nat → Nat → Option Nat
  | _, 0 => none
  | i, Nat.succ fuel =>
    if (b.ctrl.getD i ctrl_t.empty).IsEmpty then some i
    else firstEmptySlotFrom b (i + 1) fuel

/-- First empty slot of a bin, if any. -/
def firstEmptySlot (b : Bin) : Option Nat := firstEmptySlotFrom b 0 kSlotsPerBin

/-- Loop of HashTableMemory::find_first_empty: walk bins forward; if a bin
has no empty slot the source asserts `!bin_pointer.GetIsEnd()` and advances,
so reaching the is_end bin without an empty slot, or walking off the array,
is a fault (`none`). There is no wrap-around in the code. -/
def findFirstEmptyLoop (mem : HashTableMemory) : Nat → Nat → Nat → Option (Nat × Nat × Nat)
  | _, _, 0 => none
  | binIdx, probeLength, Nat.succ fuel =>
    match mem.bins.get? binIdx with
    | none => none
    | some b =>
      match firstEmptySlot b with
      | some slot => some (binIdx, slot, probeLength)
      | none =>
        if b.is_end then none
        else findFirstEmptyLoop mem (binIdx + 1) (probeLength + 1) fuel

/-- HashTableMemory::find_first_empty(hash): returns the bin number, slot
in bin, and probe length of the first empty slot at or after the home bin. -/
def find_first_empty (mem : HashTableMemory) (hash : Nat) : Option (Nat × Nat × Nat) :=
  findFirstEmptyLoop mem (H1 hash mem.logical_bin_count) 0 (mem.bins.length + 1)

/-! ## Table state and resize -/

/-- The per-table state the claims touch: the backing array plus the
`size_` and `growth_left()` fields of CommonFields. -/
structure Table where
  memory : HashTableMemory
  size : Nat
  growth_left : Nat
deriving DecidableEq

/-- A freshly allocated bin, as the code surrounding `AllocateMemory`
assumes it: all control bytes empty, search distance 0, `is_end` on the
last physical bin. (The source allocates with `aligned_alloc` and writes
no initial control bytes or search-distance words itself; we model the
fresh array as the all-empty image the transfer loop then fills.) -/
def freshBin (isLast : Bool) : Bin :=
  { ctrl := List.replicate kSlotsPerBin ctrl_t.empty
    search_distance := 0
    is_end := isLast
    slots := List.replicate kSlotsPerBin 0 }

/-- A freshly allocated physical array of `n` bins. -/
def freshBins (n : Nat) : List Bin :=
  (List.range n).map (fun i => freshBin (i + 1 = n))

/-- Body of the per-slot transfer in `resize_to_size`: for each full slot
of the old bin (slots `i` up, `fuel` remaining), hash the element, find the
first empty slot in the new array, write `ctrl_t::MakeDisordered(H2(hash))`
there and transfer the element. Every transferred slot is marked
disordered; no destination search distance is updated. (The source also
clears the old control byte, which only affects the array about to be
freed.) A fault of `find_first_empty` propagates as `none`. -/
def transferBinSlots (hashFn : Nat → Nat) (oldBin : Bin) :
    Nat → Nat → HashTableMemory → Option HashTableMemory
  | _, 0, newMem => some newMem
  | i, Nat.succ fuel, newMem =>
    if (oldBin.ctrl.getD i ctrl_t.empty).IsFull then
      let v := oldBin.slots.getD i 0
      let hash := hashFn v
      match find_first_empty newMem hash with
      | none => none
      | some (destBin, destSlot, _probe) =>
        transferBinSlots hashFn oldBin (i + 1) fuel
          ((newMem.setCtrl destBin destSlot (ctrl_t.MakeDisordered (H2 hash))).setSlot
            destBin destSlot v)
    else transferBinSlots hashFn oldBin (i + 1) fuel newMem

/-- Outer loop of the transfer in `resize_to_size`: walk the old bins from
bin 0 and stop after the bin whose `is_end` bit is set. Walking past the
last bin without meeting `is_end` would read outside the old array
(`none`). -/
def transferBins (hashFn : Nat → Nat) : List Bin → HashTableMemory → Option HashTableMemory
  | [], _ => none
  | b :: rest, newMem =>
    match transferBinSlots hashFn b 0 kSlotsPerBin newMem with
    | none => none
    | some m => if b.is_end then some m else transferBins hashFn rest m

/-- raw_hash_set::resize_to_size(new_size): allocate
`BinCountForLoad<kSlotsPerBin, kFullUtilizationNumerator,
kFullUtilizationDenominator>(new_size)` physical bins and stream the old
array into the new one. Notes kept from the source: `AllocateMemory` never
assigns `logical_bin_count_`, so it keeps its previous value; the statement
`common().capacity_ = hashtable_memory_.GetLogicalBinCount * kSlotsPerBin`
(reading the intended `GetLogicalBinCount()`) makes the capacity
`logical_bin_count * kSlotsPerBin`, and the following `initialize-slots`
call resets `growth_left()` to `capacity_ - size_` in `size_t` arithmetic. -/
def resize_to_size (t : Table) (hashFn : Nat → Nat) (new_size : Nat) : Option Table :=
  let binCount :=
    BinCountForLoad kSlotsPerBin kFullUtilizationNumerator kFullUtilizationDenominator new_size
  let newMem0 : HashTableMemory :=
    { logical_bin_count := t.memory.logical_bin_count, bins := freshBins binCount }
  match transferBins hashFn t.memory.bins newMem0 with
  | none => none
  | some m =>
    let capacity := t.memory.logical_bin_count * kSlotsPerBin
    some { memory := m
           size := t.size
           growth_left := (capacity + 2 ^ 64 - t.size % 2 ^ 64) % 2 ^ 64 }

/-- raw_hash_set::resize(new_capacity): clamp 0 to 1, then
`resize_to_size(Ceil(new_capacity * kFullUtilizationNumerator,
kFullUtilizationDenominator))`. -/
def resize (t : Table) (hashFn : Nat → Nat) (new_capacity : Nat) : Option Table :=
  let nc := if new_capacity = 0 then 1 else new_capacity
  resize_to_size t hashFn (Ceil (nc * kFullUtilizationNumerator) kFullUtilizationDenominator)

/-! ## prepare_insert and insert -/

/-- Tail of raw_hash_set::prepare_insert once the target slot is known:
`++size_`, then `growth_left() -= IsEmpty(ctrl[target])`. The next
statement of the source is
`hashtable_memory_.ControlOf(target.bin_number)[target.slot_in_bin].MakeDisordered(H2(hash));`
— this names the static factory `ctrl_t::MakeDisordered` through the slot
lvalue and discards the returned `ctrl_t`, so no control byte is written;
and no statement of `prepare_insert` updates any search distance. The
backing array is therefore returned unchanged. -/
def finishPrepareInsert (t : Table) (target : Nat × Nat × Nat) : Table × Nat × Nat :=
  let binNumber := target.1
  let slotInBin := target.2.1
  let dec := if (t.memory.ctrlAt binNumber slotInBin).IsEmpty then 1 else 0
  ({ t with size := t.size + 1, growth_left := t.growth_left - dec }, binNumber, slotInBin)

/-- raw_hash_set::prepare_insert(hash, h2). Generations are disabled
outside sanitizer builds, so `should_rehash_for_bug_detection_on_insert()`
is false and that branch is dead. The source computes the target with
`find_first_non_full(common(), hash)`, a function that does not exist in
the repository; the only find-empty routine, and the one the header
documentation describes, is `HashTableMemory::find_first_empty`, which we
use. When `growth_left() == 0` the table is resized to
`SizeAfterRehash(size_)` and the target recomputed. -/
def prepare_insert (t : Table) (hashFn : Nat → Nat) (hash : Nat) : Option (Table × Nat × Nat) :=
  match find_first_empty t.memory hash with
  | none => none
  | some target =>
    if t.growth_left = 0 then
      match resize t hashFn (SizeAfterRehash t.size) with
      | none => none
      | some t1 =>
        match find_first_empty t1.memory hash with
        | none => none
        | some target1 => some (finishPrepareInsert t1 target1)
    else some (finishPrepareInsert t target)

/-- raw_hash_set::find_or_prepare_insert(key): run the find scan (the same
loop as `find`); on a hit return the existing slot with `false`, on a miss
call `prepare_insert` and return its slot with `true`. -/
def find_or_prepare_insert (t : Table) (hashFn : Nat → Nat) (eqFn : Nat → Nat → Bool)
    (key : Nat) : Option (Table × Nat × Nat × Bool) :=
  let hash := hashFn key
  match find t.memory eqFn key hash with
  | FindLoc.found b s => some (t, b, s, false)
  | FindLoc.fault => none
  | FindLoc.endIter =>
    match prepare_insert t hashFn hash with
    | none => none
    | some (t1, b, s) => some (t1, b, s, true)

/-- raw_hash_set::insert / emplace: `find_or_prepare_insert`, and when a
new slot was prepared, construct the value in it (`emplace_at`). -/
def insert (t : Table) (hashFn : Nat → Nat) (eqFn : Nat → Nat → Bool) (key : Nat) :
    Option (Table × Bool) :=
  match find_or_prepare_insert t hashFn eqFn key with
  | none => none
  | some (t1, b, s, inserted) =>
    if inserted then some ({ t1 with memory := t1.memory.setSlot b s key }, true)
    else some (t1, false)

/-! ## Iterator increment -/

/-- raw_hash_set::iterator: a bin number and a slot index within the bin.
The end iterator has `slot_in_bin = kSlotsPerBin` on the is_end bin. -/
structure iterator where
  bin_number : Nat
  slot_in_bin : Nat
deriving DecidableEq

/-- BinPointer::get_is_end for the iterator's current bin (all uses below
stay within the array). -/
def get_is_end (mem : HashTableMemory) (binNumber : Nat) : Bool :=
  match mem.bins.get? binNumber with
  | some b => b.is_end
  | none => false

/-- iterator::skip_empty_or_deleted. The entire body of this function is
inside an `#if 0` block in the source, so it changes nothing. -/
def skip_empty_or_deleted (it : iterator) : iterator := it

/-- iterator::operator++: `++slot_in_bin_`; if it reached kSlotsPerBin and
the current bin is not the is_end bin, advance to the next bin and reset
the slot index to 0; then `skip_empty_or_deleted()`. There is no fatal
branch: on the is_end bin the index simply stays at kSlotsPerBin. -/
def iterator_increment (mem : HashTableMemory) (it : iterator) : iterator :=
  let s := it.slot_in_bin + 1
  if s = kSlotsPerBin && !(get_is_end mem it.bin_number) then
    skip_empty_or_deleted { bin_number := it.bin_number + 1, slot_in_bin := 0 }
  else
    skip_empty_or_deleted { bin_number := it.bin_number, slot_in_bin := s }

/-! ## EraseMetaOnly (raw_hash_set.cc)

`EraseMetaOnly` still operates on the flat swiss-table view of
CommonFields: a raw control-byte array `control_`, a `capacity_`, and
Group scans over 8 consecutive bytes (the platform-portable
`GroupPortableImpl`, kWidth = 8). We embed the byte-level arithmetic. -/

/-- Group width of the portable group implementation. -/
def GroupWidth : Nat := 8

/-- Little-endian 64-bit load of 8 control bytes starting at `idx`
(`GroupPortableImpl`'s constructor). All uses below stay in range. -/
def load64 (bytes : List Nat) (idx : Nat) : Nat :=
  bytes.getD idx 0 +
    256 * (bytes.getD (idx + 1) 0 +
      256 * (bytes.getD (idx + 2) 0 +
        256 * (bytes.getD (idx + 3) 0 +
          256 * (bytes.getD (idx + 4) 0 +
            256 * (bytes.getD (idx + 5) 0 +
              256 * (bytes.getD (idx + 6) 0 +
                256 * bytes.getD (idx + 7) 0))))))

/-- Bitwise complement within 64 bits. -/
def complement64 (x : Nat) : Nat := 2 ^ 64 - 1 - x % 2 ^ 64

/-- The broadcast most-significant-bit mask 0x8080808080808080. -/
def kMsbs : Nat := 0x8080808080808080

/-- GroupPortableImpl::MaskEmpty: `(ctrl & (~ctrl << 6)) & msbs`. -/
def MaskEmpty (ctrl64 : Nat) : Nat :=
  (ctrl64 &&& (complement64 ctrl64 <<< 6) % 2 ^ 64) &&& kMsbs

/-- Trailing zero count of a 64-bit word (64 for zero). -/
def ctzAux : Nat → Nat → Nat
  | 0, _ => 0
  | Nat.succ fuel, n => if n % 2 = 1 then 0 else 1 + ctzAux fuel (n / 2)

/-- countr_zero on 64 bits. -/
def countr_zero64 (n : Nat) : Nat := ctzAux 64 n

/-- Bit width of a 64-bit word. -/
def bitWidthAux : Nat → Nat → Nat
  | 0, _ => 0
  | Nat.succ fuel, n => if n = 0 then 0 else bitWidthAux fuel (n / 2) + 1

/-- countl_zero on 64 bits. -/
def countl_zero64 (n : Nat) : Nat := 64 - bitWidthAux 64 n

/-- The CommonFields state `EraseMetaOnly` touches: the flat control-byte
array, the capacity, the size and the growth-left counter. -/
structure CommonFields where
  control : List Nat
  capacity : Nat
  size : Nat
  growth_left : Nat
deriving DecidableEq

/-- EraseMetaOnly(c, it, slot_size) from raw_hash_set.cc, with `index`
standing for `it - c.control_`. It decrements `size_`, computes
`was_never_full` from the empty masks of the group at `index` and the
group at `(index - Group::kWidth) & capacity_` (size_t arithmetic), and
adds `was_never_full ? 1 : 0` to `growth_left()`. The `SetCtrl` call that
would write the control byte at `index` is inside an `#if 0` block, so no
control byte is modified. -/
def EraseMetaOnly (c : CommonFields) (index : Nat) : CommonFields :=
  let index_before := ((index + 2 ^ 64 - GroupWidth) % 2 ^ 64) &&& c.capacity
  let empty_after := MaskEmpty (load64 c.control index)
  let empty_before := MaskEmpty (load64 c.control index_before)
  let was_never_full : Bool :=
    empty_before != 0 && empty_after != 0 &&
      Nat.blt (countr_zero64 empty_after / 8 + countl_zero64 empty_before / 8) GroupWidth
  { c with size := c.size - 1
           growth_left := c.growth_left + (if was_never_full then 1 else 0) }

/-! ## Generation counter -/

/-- SentinelEmptyGeneration(): the generation value of an empty table, 0. -/
def SentinelEmptyGeneration : Nat := 0

/-- NextGeneration(generation): `++generation` on a uint8_t, and when the
increment wrapped to the sentinel, increment once more. -/
def NextGeneration (generation : Nat) : Nat :=
  let g1 := (generation + 1) % 256
  if g1 = SentinelEmptyGeneration then (g1 + 1) % 256 else g1

/-- IsEmptyGeneration: whether the pointed-to generation value is the
sentinel of an empty table. -/
def IsEmptyGeneration (generation : Nat) : Bool := generation == SentinelEmptyGeneration

/-! ## Concrete states used to evaluate the code -/

/-- A well-formed allocated backing array of one bin: all slots empty,
search distance 0, is_end set, logical bin count 1. -/
def mem1 : HashTableMemory := { logical_bin_count := 1, bins := [freshBin true] }

/-- A well-formed empty table over `mem1` with the full growth budget of
one bin (14 slots). -/
def t0 : Table := { memory := mem1, size := 0, growth_left := 14 }

/-- An old bin holding exactly one full, ordered element with key 5
(identity hash, so H2 = 5 and the home bin is 0). -/
def oldBinC4 : Bin :=
  { ctrl := ctrl_t.MakeOrdered 3 :: List.replicate 13 ctrl_t.empty
    search_distance := 0
    is_end := true
    slots := 5 :: List.replicate 13 0 }

/-- A one-element table about to be rehashed. -/
def tC4 : Table :=
  { memory := { logical_bin_count := 1, bins := [oldBinC4] }, size := 1, growth_left := 0 }

/-- The number of slots the rehash performed by `prepare_insert` on
`growth_left() == 0` allocates for a table of the given size: it calls
`resize(SizeAfterRehash(size))`, which calls
`resize_to_size(Ceil(new_capacity * kFullUtilizationNumerator,
kFullUtilizationDenominator))`, which allocates
`BinCountForLoad<kSlotsPerBin, kFullUtilizationNumerator,
kFullUtilizationDenominator>(new_size)` bins of kSlotsPerBin slots. -/
def slotsAllocatedByRehash (size : Nat) : Nat :=
  kSlotsPerBin *
    BinCountForLoad kSlotsPerBin kFullUtilizationNumerator kFullUtilizationDenominator
      (Ceil ((if SizeAfterRehash size = 0 then 1 else SizeAfterRehash size) *
        kFullUtilizationNumerator) kFullUtilizationDenominator)

/-- A flat swiss-style control array for `EraseMetaOnly`: capacity 7, so
8 control bytes. Every byte is 128, the raw byte of the full, ordered
control ⟨false, 64⟩ (`ctrlByte ⟨false, 64⟩ = 128`); in particular the
erased slot at index 0 is full, as EraseMetaOnly's own assert demands. -/
def cfC2 : CommonFields :=
  { control := List.replicate 8 128, capacity := 7, size := 1, growth_left := 5 }

/-- A one-bin array whose slot 0 is full and slot 1 is empty, for
exercising the iterator increment. -/
def memC9 : HashTableMemory :=
  { logical_bin_count := 1
    bins := [{ ctrl := ctrl_t.MakeDisordered 0 :: List.replicate 13 ctrl_t.empty
               search_distance := 1
               is_end := true
               slots := 0 :: List.replicate 13 0 }] }

/-- The backing array of a default-constructed table: no bins allocated,
logical and physical bin counts 0. -/
def defaultMemory : HashTableMemory := { logical_bin_count := 0, bins := [] }

/-! ## Claim theorems -/

/-- C1: evaluating the round-trip claim at a failing input. Inserting key 0
into the well-formed one-bin table `t0` (identity hash, Nat equality)
reports `inserted = true`, yet an immediate `find` of the same key returns
the end iterator — `prepare_insert` discards the result of the static
`ctrl_t::MakeDisordered` call, so the target control byte stays empty, and
it never raises the home bin's search distance, so the find scan visits
zero bins. The claim that `find(k)` right after a successful `insert(k)`
returns a non-end iterator to k is therefore false on the code. -/
theorem C1_insert_then_find_misses :
    (insert t0 (fun k => k) (fun a b => a == b) 0).map (fun p => p.2) = some true ∧
    (insert t0 (fun k => k) (fun a b => a == b) 0).map
      (fun p => find p.1.memory (fun a b => a == b) 0 0) = some FindLoc.endIter := by
  decide

/-- C2: evaluating `EraseMetaOnly` at a failing input. On the state `cfC2`
(capacity 7, all 8 control bytes full with raw byte 128), erasing index 0
leaves the control array unchanged — the `SetCtrl` call is inside an
`#if 0` block, so the slot's control byte is not set to empty — and it
increments `growth_left()` by 1 because `was_never_full` holds, contrary
to the claim that growth_left is never incremented by erase. Only the
size decrement behaves as claimed. -/
theorem C2_erase_meta_only_diverges :
    (EraseMetaOnly cfC2 0).control = cfC2.control ∧
    (EraseMetaOnly cfC2 0).size = cfC2.size - 1 ∧
    (EraseMetaOnly cfC2 0).growth_left = cfC2.growth_left + 1 := by
  decide

/-- C3: evaluating `prepare_insert` at a failing input. On the empty
one-bin table `t0` with hash 0 (so q = H2(0) = 0), `find_first_empty`
locates the target at bin 0, slot 0, probe length 0, but after
`prepare_insert` the backing array is completely unchanged: the target's
control byte is still empty instead of `{disordered: true, h2: q}`,
because the write discards the result of the static factory call, and no
statement updates the home bin's search distance. -/
theorem C3_prepare_insert_writes_no_metadata :
    find_first_empty t0.memory 0 = some (0, 0, 0) ∧
    prepare_insert t0 (fun k => k) 0 =
      some ({ memory := mem1, size := 1, growth_left := 13 }, 0, 0) ∧
    (mem1.ctrlAt 0 0).IsEmpty = true ∧
    (mem1.bins.get? 0).map Bin.search_distance = some 0 := by
  decide

/-- C4: evaluating the rehash at a failing input. Rehashing the
one-element table `tC4` (key 5, identity hash) places the element at bin
0, slot 0 of the new array with control byte
`ctrl_t::MakeDisordered(H2(5))` — the transfer loop of `resize_to_size`
marks every transferred slot disordered. Its home bin `H1(5, 1) = 0` does
not exceed its physical bin index 0, so this is not a wrap-around
placement, contradicting the claim that after a rehash no slot is marked
disordered except wrap-around placements. -/
theorem C4_rehash_marks_transferred_slot_disordered :
    (resize_to_size tC4 (fun k => k) 1).map (fun t => t.memory.ctrlAt 0 0) =
      some (ctrl_t.MakeDisordered (H2 5)) ∧
    (ctrl_t.MakeDisordered (H2 5)).is_disordered = true ∧
    H1 5 1 = 0 := by
  decide

/-- C5: evaluating the idempotence claim at a failing input. Inserting
key 0 twice into the table `t0`: the second insert again reports
`inserted = true` and raises the size to 2 (and consumes another unit of
growth), instead of returning `false` with the size unchanged — the first
insert left no trace in the metadata, so the second find scan misses. -/
theorem C5_second_insert_not_detected :
    (insert t0 (fun k => k) (fun a b => a == b) 0).bind
      (fun p => insert p.1 (fun k => k) (fun a b => a == b) 0) =
      some ({ memory := mem1, size := 2, growth_left := 12 }, true) := by
  decide

/-- C6: evaluating the capacity law at a failing input. With capacity 112
(8 bins) the full-utilization trigger `capacity * 7/8 = 98` is reached at
size 100, and the rehash performed by `prepare_insert` then allocates
`slotsAllocatedByRehash 100 = 56` slots: `SizeAfterRehash` multiplies the
size by 7/16 instead of 16/7, so the new capacity neither satisfies
`size ≤ new_capacity * 7/16` (100 > 24) nor even `size ≤ new_capacity`
(100 > 56). -/
theorem C6_rehash_capacity_shrinks :
    kFullUtilizationNumerator * 112 / kFullUtilizationDenominator ≤ 100 ∧
    SizeAfterRehash 100 = 44 ∧
    slotsAllocatedByRehash 100 = 56 ∧
    ¬ (100 ≤ slotsAllocatedByRehash 100 * kRehashedUtilizationNumerator /
        kRehashedUtilizationDenominator) ∧
    ¬ (100 ≤ slotsAllocatedByRehash 100) := by
  decide

/-- C7: hash splitting. For every raw hash and every logical bin count
that are representable `size_t` values with a positive bin count, `H1` is
the high 64-bit word of the 128-bit product and lies below the logical bin
count, and `H2` is the hash modulo 127 and lies in [0, 127). -/
theorem C7_hash_splitting (hash L : Nat) (hhash : hash < 2 ^ 64) (hL : 0 < L)
    (hLsize : L < 2 ^ 64) :
    H1 hash L = hash * L / 2 ^ 64 ∧ H1 hash L < L ∧
      H2 hash = hash % 127 ∧ H2 hash < 127 := by
  refine ⟨rfl, ?_, rfl, Nat.mod_lt hash (by norm_num)⟩
  have hmul : hash * L < 2 ^ 64 * L := Nat.mul_lt_mul_of_pos_right hhash hL
  exact Nat.div_lt_of_lt_mul hmul

/-- C7 witness: the hash-splitting theorem applied at hash 5 and logical
bin count 3. -/
theorem C7_hash_splitting_witness :
    (5 : Nat) < 2 ^ 64 ∧ (0 : Nat) < 3 ∧ (3 : Nat) < 2 ^ 64 ∧
      (H1 5 3 = 5 * 3 / 2 ^ 64 ∧ H1 5 3 < 3 ∧ H2 5 = 5 % 127 ∧ H2 5 < 127) :=
  ⟨by norm_num, by norm_num, by norm_num,
    C7_hash_splitting 5 3 (by norm_num) (by norm_num) (by norm_num)⟩

/-- C8: evaluating find on a default-constructed table. The table has no
allocated bins (physical bin count 0) and a null backing pointer, so
`MakeBinPointer(H1(hash, 0))` fails its bound assert and the
search-distance read dereferences a null bin pointer: in the embedding,
`find` returns the fault marker for every key and hash, not the end
iterator — there is no reference to a shared all-empty bucket image in the
find path. -/
theorem C8_empty_table_find_faults (eqFn : Nat → Nat → Bool) (key hash : Nat) :
    find defaultMemory eqFn key hash = FindLoc.fault := by
  simp [find, defaultMemory]

/-- C9: evaluating the iterator increment at a failing input. On the
one-bin array `memC9` whose slot 0 is full and slot 1 empty, incrementing
the iterator at slot 0 yields the iterator at slot 1 — an iterator that is
neither the end iterator (its slot index is 1, not kSlotsPerBin) nor a
full slot, because the body of `skip_empty_or_deleted` is entirely inside
`#if 0` and skips nothing. Incrementing at slot 13 of the is_end bin
simply yields slot index 14 (the end iterator) with no fatal branch in the
code. -/
theorem C9_increment_does_not_skip_empty :
    iterator_increment memC9 ⟨0, 0⟩ = ⟨0, 1⟩ ∧
    (memC9.ctrlAt 0 1).IsEmpty = true ∧
    (1 : Nat) ≠ kSlotsPerBin ∧
    iterator_increment memC9 ⟨0, 13⟩ = ⟨0, 14⟩ := by
  decide

/-- C10: the generation counter never returns to the empty sentinel. For
every generation value, `NextGeneration` increments modulo 256 and skips
the sentinel 0, so its result is never `SentinelEmptyGeneration` and
`IsEmptyGeneration` of a bumped generation is false. -/
theorem C10_next_generation_never_sentinel (g : Nat) :
    NextGeneration g ≠ SentinelEmptyGeneration ∧
      IsEmptyGeneration (NextGeneration g) = false := by
  unfold NextGeneration IsEmptyGeneration SentinelEmptyGeneration
  by_cases h : (g + 1) % 256 = 0
  · simp [h]
  · simp [h]

end GraveyardSpec
